import Mathlib

/-!
Verification development for the compiler front end of the COCO_24
repository: a hand-written DFA lexer over a twin buffer and an LL(1)
predictive parser whose table is derived from FIRST and FOLLOW sets.

The definitions below are shallow embeddings of the C source.  The twin
buffer is modelled as a character list with a cursor: fetching past the
end of the input yields the NUL sentinel, exactly as the buffer refill
logic plants a NUL byte after the last real byte of the file.
-/

namespace Coco

/-- Token kinds, in the exact order of the C enum Token. -/
inductive Tok where
  | ASSIGNOP | COMMENT | FIELDID | ID | NUM | RNUM | FUNID | RUID
  | WITH | PARAMETERS | END | WHILE | UNION | ENDUNION | DEFINETYPE
  | AS | TYPE | MAIN | GLOBAL | PARAMETER | LIST | SQL | SQR
  | INPUT | OUTPUT | INT | REAL | COMMA | SEM | COLON | DOT
  | ENDWHILE | OP | CL | IF | THEN | ENDIF | READ | WRITE | RETURN
  | PLUS | MINUS | MUL | DIV | CALL | RECORD | ENDRECORD | ELSE
  | AND | OR | NOT | LT | LE | EQ | GT | GE | NE
  | EPS | DOLLAR | LEXICAL_ERROR | ID_LENGTH_EXC | FUN_LENGTH_EXC
  | TK_NOT_FOUND
deriving DecidableEq, Repr

/-- Numeric value of each Token enum constant in the C source. -/
def tokIdx : Tok → Nat
  | .ASSIGNOP => 0 | .COMMENT => 1 | .FIELDID => 2 | .ID => 3
  | .NUM => 4 | .RNUM => 5 | .FUNID => 6 | .RUID => 7
  | .WITH => 8 | .PARAMETERS => 9 | .END => 10 | .WHILE => 11
  | .UNION => 12 | .ENDUNION => 13 | .DEFINETYPE => 14 | .AS => 15
  | .TYPE => 16 | .MAIN => 17 | .GLOBAL => 18 | .PARAMETER => 19
  | .LIST => 20 | .SQL => 21 | .SQR => 22 | .INPUT => 23
  | .OUTPUT => 24 | .INT => 25 | .REAL => 26 | .COMMA => 27
  | .SEM => 28 | .COLON => 29 | .DOT => 30 | .ENDWHILE => 31
  | .OP => 32 | .CL => 33 | .IF => 34 | .THEN => 35 | .ENDIF => 36
  | .READ => 37 | .WRITE => 38 | .RETURN => 39 | .PLUS => 40
  | .MINUS => 41 | .MUL => 42 | .DIV => 43 | .CALL => 44
  | .RECORD => 45 | .ENDRECORD => 46 | .ELSE => 47 | .AND => 48
  | .OR => 49 | .NOT => 50 | .LT => 51 | .LE => 52 | .EQ => 53
  | .GT => 54 | .GE => 55 | .NE => 56 | .EPS => 57 | .DOLLAR => 58
  | .LEXICAL_ERROR => 59 | .ID_LENGTH_EXC => 60 | .FUN_LENGTH_EXC => 61
  | .TK_NOT_FOUND => 62

/-- Non-terminals, in the exact order of the C enum NonTerminal.
The constant actualOrRedefined is declared after the sentinel
NT_NOT_FOUND in the source, and is kept in that position here. -/
inductive NT where
  | program | otherFunctions | mainFunction | stmts | stmt
  | function | input_par | output_par | parameter_list | dataType
  | remaining_list | primitiveDatatype | constructedDatatype
  | typeDefinitions | typeDefinition | declarations | declaration
  | otherStmts | returnStmt | definetypestmt | fieldDefinition
  | fieldDefinitions | fieldType | moreFields | global_or_not
  | assignmentStmt | iterativeStmt | conditionalStmt | elsePart
  | ioStmt | funCallStmt | option_single_constructed
  | outputParameters | inputParameters | highPrecedenceOperators
  | lowPrecedenceOperators | oneExpansion | moreExpansions
  | expPrime | term | termPrime | factor | more_ids | A | idList
  | relationalOp | optionalReturn | var | logicalOp
  | arithmeticExpression | SingleOrRecId | booleanExpression
  | NT_NOT_FOUND | actualOrRedefined
deriving DecidableEq, Repr

/-- Grammar symbol: the C SymbolUnit tagged union. -/
inductive Sym where
  | nt (n : NT)
  | t (tk : Tok)
deriving DecidableEq, Repr

/-- Grammar rule: left-hand non-terminal and right-hand symbol list. -/
structure GRule where
  lhs : NT
  rhs : List Sym
deriving DecidableEq, Repr

/-! ## Lexer data model -/

/-- Symbol table entry: lexeme, token kind and numeric value.  The C
field numericValue is a double; it is modelled by an exact rational. -/
structure Entry where
  lexeme : List Char
  tokenType : Tok
  numericValue : ℚ
deriving DecidableEq, Repr

/-- Token node: reference to a symbol table entry plus a line number. -/
structure TokNode where
  entry : Entry
  lineNum : Nat
deriving DecidableEq, Repr

/-- The NUL sentinel character planted after the end of the file. -/
def nulChar : Char := Char.ofNat 0

/-- Reading one character at cursor position p: characters of the file,
then the NUL sentinel for every position past the end. -/
def fetchAt (input : List Char) (p : Nat) : Char :=
  input.getD p nulChar

/-- The C extractLexeme: the characters between the begin cursor b and
the forward cursor (exclusive position p). -/
def extractLex (input : List Char) (b p : Nat) : List Char :=
  (input.drop b).take (p - b)

/-- The C ctype tests, over the ASCII ranges they use. -/
def isDigitCh (c : Char) : Bool := decide ('0' ≤ c) && decide (c ≤ '9')

def isLowerCh (c : Char) : Bool := decide ('a' ≤ c) && decide (c ≤ 'z')

def isUpperCh (c : Char) : Bool := decide ('A' ≤ c) && decide (c ≤ 'Z')

def isAlphaCh (c : Char) : Bool := isUpperCh c || isLowerCh c

/-- Character range test used by the variable identifier states. -/
def isVarDigit (c : Char) : Bool := decide ('2' ≤ c) && decide (c ≤ '7')

/-- Character range test for the letters b, c, d. -/
def isBD (c : Char) : Bool := decide ('b' ≤ c) && decide (c ≤ 'd')

/-- The keyword trie of setupKeywordTrie, as the exact lookup function
it computes: the 27 reserved words and nothing else. -/
def findKeyword (w : List Char) : Option Tok :=
  let tbl : List (List Char × Tok) :=
    [("with".toList, .WITH), ("parameters".toList, .PARAMETERS),
     ("end".toList, .END), ("while".toList, .WHILE),
     ("union".toList, .UNION), ("endunion".toList, .ENDUNION),
     ("definetype".toList, .DEFINETYPE), ("as".toList, .AS),
     ("type".toList, .TYPE), ("global".toList, .GLOBAL),
     ("parameter".toList, .PARAMETER), ("list".toList, .LIST),
     ("input".toList, .INPUT), ("output".toList, .OUTPUT),
     ("int".toList, .INT), ("real".toList, .REAL),
     ("endwhile".toList, .ENDWHILE), ("if".toList, .IF),
     ("then".toList, .THEN), ("endif".toList, .ENDIF),
     ("read".toList, .READ), ("write".toList, .WRITE),
     ("return".toList, .RETURN), ("call".toList, .CALL),
     ("record".toList, .RECORD), ("endrecord".toList, .ENDRECORD),
     ("else".toList, .ELSE)]
  (tbl.find? (fun e => e.1 = w)).map (fun e => e.2)

/-- The lookupToken linear scan of the symbol table. -/
def lookupToken (tbl : List Entry) (lex : List Char) : Option Entry :=
  tbl.find? (fun e => e.lexeme = lex)

/-- The pattern repeated at every token emission site of getNextToken:
lookupToken first, reuse the found entry verbatim, otherwise build the
entry with newSymbolTableEntry and append it with addToken. -/
def lookupOrAddToken (tbl : List Entry) (lex : List Char) (k : Tok)
    (v : ℚ) : Entry × List Entry :=
  match lookupToken tbl lex with
  | some e => (e, tbl)
  | none => let e : Entry := ⟨lex, k, v⟩; (e, tbl ++ [e])

/-! ## Lexer DFA -/

/-- Numeric conversion loop for integer literals:
numVal = numVal * 10 + (lexeme at i minus the code of zero). -/
def natOfDigits (lex : List Char) : ℚ :=
  lex.foldl (fun acc c => acc * 10 + ((c.toNat : ℚ) - 48)) 0

/-- Character code at index j of a lexeme, as a rational. -/
def chCode (lex : List Char) (j : Nat) : ℚ :=
  ((lex.getD j nulChar).toNat : ℚ)

/-- Value computed in state 6 for a real literal without exponent:
integer part plus first fractional digit over 10 plus second over 100. -/
def rnumValNoExp (lex : List Char) : ℚ :=
  let ip := lex.takeWhile (fun c => c ≠ '.')
  let i := ip.length
  natOfDigits ip + (chCode lex (i+1) - 48) / 10 + (chCode lex (i+2) - 48) / 100

/-- The pow function applied to base 10 and an integer exponent. -/
def qpow10 (e : ℤ) : ℚ :=
  if 0 ≤ e then (10 : ℚ) ^ e.toNat else ((10 : ℚ) ^ (-e).toNat)⁻¹

/-- Value computed in state 7 for a real literal with exponent.  The C
computes the exponent as lexeme[i] * 10 + lexeme[i+1] on raw character
values, without subtracting the code of zero; that is kept verbatim. -/
def rnumValExp (lex : List Char) : ℚ :=
  let ip := lex.takeWhile (fun c => c ≠ '.')
  let i := ip.length
  let mant := natOfDigits ip
    + (chCode lex (i+1) - 48) / 10 + (chCode lex (i+2) - 48) / 100
  let j := i + 4
  let e0 : ℤ :=
    if isDigitCh (lex.getD j nulChar) then
      (lex.getD j nulChar).toNat * 10 + (lex.getD (j+1) nulChar).toNat
    else
      (lex.getD (j+1) nulChar).toNat * 10 + (lex.getD (j+2) nulChar).toNat
  let e1 : ℤ := if lex.getD j nulChar = '-' then -e0 else e0
  mant * qpow10 e1

/-- Length of the longest prefix satisfying the predicate. -/
def skipCount (pred : Char → Bool) : List Char → Nat
  | [] => 0
  | c :: cs => if pred c then skipCount pred cs + 1 else 0

/-- Cursor position of the first character at or past p that fails the
predicate; reading past the end stops the scan, as the fetched NUL
sentinel fails every predicate the DFA skips with. -/
def skipWhile (pred : Char → Bool) (input : List Char) (p : Nat) : Nat :=
  p + skipCount pred (input.drop p)

/-- Index of the first newline in a character list. -/
def idxOfNewline : List Char → Option Nat
  | [] => none
  | c :: cs =>
    if c = '\n' then some 0 else (idxOfNewline cs).map (· + 1)

/-- Index of the first newline at or past p, if the input still holds
one; none models the comment-skipping loop never meeting a newline. -/
def findNewlineFrom (input : List Char) (p : Nat) : Option Nat :=
  (idxOfNewline (input.drop p)).map (· + p)

/-- DFA configuration: state number, begin cursor, forward cursor (as
the count of consumed characters), line number, symbol table. -/
structure Cfg where
  state : Nat
  b : Nat
  p : Nat
  line : Nat
  tbl : List Entry
deriving DecidableEq, Repr

/-- One-step outcome of the DFA loop body. -/
inductive StepOut where
  | cont (c : Cfg)
  | emit (t : TokNode) (p line : Nat) (tbl : List Entry)
  | diverge
  | nullRes
deriving DecidableEq, Repr

/-- Emission of a token node for an interned entry. -/
def emitTok (r : Entry × List Entry) (p ln : Nat) : StepOut :=
  .emit ⟨r.1, ln⟩ p ln r.2

/-- Retract, extract the lexeme from b to p, intern it and return. -/
def emitHere (input : List Char) (b p ln : Nat) (tbl : List Entry)
    (k : Tok) (v : ℚ) : StepOut :=
  emitTok (lookupOrAddToken tbl (extractLex input b p) k v) p ln

/-- The identifier-length-exceeded branch shared by states 4 and 80:
truncate the lexeme to its first 20 characters plus an ellipsis, intern
the error entry, consume the remaining b-d characters, and either
resume state 4 on a digit in 2..7 or return the error token. -/
def idLongBranch (input : List Char) (b p ln : Nat) (tbl : List Entry) :
    StepOut :=
  let r := lookupOrAddToken tbl
    ((extractLex input b p).take 20 ++ ['.', '.', '.']) .ID_LENGTH_EXC 0
  if isVarDigit (fetchAt input (skipWhile isBD input p)) then
    .cont ⟨4, b, skipWhile isBD input p, ln, r.2⟩
  else emitTok r (skipWhile isBD input p) ln

/-- The function-name-length-exceeded branch shared by states 8 and 81:
truncate to 30 characters plus an ellipsis, intern the error entry,
consume the remaining digits and return the error token. -/
def funLongBranch (input : List Char) (b p ln : Nat) (tbl : List Entry) :
    StepOut :=
  emitTok
    (lookupOrAddToken tbl
      ((extractLex input b p).take 30 ++ ['.', '.', '.']) .FUN_LENGTH_EXC 0)
    (skipWhile isDigitCh input p) ln

/-- One iteration of the getNextToken switch. -/
def dfaStep (input : List Char) (c : Cfg) : StepOut :=
  match c with
  | ⟨st, b, p, ln, tbl⟩ =>
    match st with
    | 0 =>
      let ch := fetchAt input p
      if ch = '\n' then .cont ⟨0, b+1, p+1, ln+1, tbl⟩
      else if ch = ' ' ∨ ch = '\t' ∨ ch = '\r' then .cont ⟨0, b+1, p+1, ln, tbl⟩
      else if isDigitCh ch then .cont ⟨5, b, p+1, ln, tbl⟩
      else if ch = '%' then .cont ⟨65, b, p+1, ln, tbl⟩
      else if ch = '>' then .cont ⟨56, b, p+1, ln, tbl⟩
      else if ch = '<' then .cont ⟨53, b, p+1, ln, tbl⟩
      else if ch = '=' then .cont ⟨68, b, p+1, ln, tbl⟩
      else if ch = '_' then .cont ⟨69, b, p+1, ln, tbl⟩
      else if ch = '/' then .cont ⟨45, b, p+1, ln, tbl⟩
      else if ch = '@' then .cont ⟨73, b, p+1, ln, tbl⟩
      else if ch = '*' then .cont ⟨44, b, p+1, ln, tbl⟩
      else if ch = '#' then .cont ⟨75, b, p+1, ln, tbl⟩
      else if ch = '[' then .cont ⟨23, b, p+1, ln, tbl⟩
      else if ch = ']' then .cont ⟨24, b, p+1, ln, tbl⟩
      else if ch = ',' then .cont ⟨29, b, p+1, ln, tbl⟩
      else if ch = ':' then .cont ⟨31, b, p+1, ln, tbl⟩
      else if ch = ';' then .cont ⟨30, b, p+1, ln, tbl⟩
      else if ch = '+' then .cont ⟨42, b, p+1, ln, tbl⟩
      else if ch = ')' then .cont ⟨35, b, p+1, ln, tbl⟩
      else if ch = '-' then .cont ⟨43, b, p+1, ln, tbl⟩
      else if ch = '(' then .cont ⟨34, b, p+1, ln, tbl⟩
      else if ch = '&' then .cont ⟨76, b, p+1, ln, tbl⟩
      else if ch = '~' then .cont ⟨52, b, p+1, ln, tbl⟩
      else if ch = '!' then .cont ⟨78, b, p+1, ln, tbl⟩
      else if ch = 'a' ∨ ('d' < ch ∧ ch ≤ 'z') then .cont ⟨3, b, p+1, ln, tbl⟩
      else if isBD ch then .cont ⟨79, b, p+1, ln, tbl⟩
      else if ch = '.' then .cont ⟨59, b, p+1, ln, tbl⟩
      else if ch = nulChar then .emit ⟨⟨[], .DOLLAR, 0⟩, ln⟩ (p+1) ln tbl
      else emitTok (lookupOrAddToken tbl [ch] .LEXICAL_ERROR 0) (p+1) ln
    | 1 => emitHere input b p ln tbl .ASSIGNOP 0
    | 2 => .cont ⟨2, b, p, ln, tbl⟩
    | 3 =>
      let ch := fetchAt input p
      if isLowerCh ch then .cont ⟨3, b, p+1, ln, tbl⟩
      else
        emitHere input b p ln tbl
          ((findKeyword (extractLex input b p)).getD .FIELDID) 0
    | 4 =>
      let ch := fetchAt input p
      if isVarDigit ch then
        if p + 1 - b > 20 then idLongBranch input b (p+1) ln tbl
        else .cont ⟨4, b, p+1, ln, tbl⟩
      else emitHere input b p ln tbl .ID 0
    | 5 =>
      let ch := fetchAt input p
      if ch = '.' then .cont ⟨60, b, p+1, ln, tbl⟩
      else if isDigitCh ch then .cont ⟨5, b, p+1, ln, tbl⟩
      else emitHere input b p ln tbl .NUM (natOfDigits (extractLex input b p))
    | 6 =>
      let ch := fetchAt input p
      if ch = 'E' then .cont ⟨62, b, p+1, ln, tbl⟩
      else emitHere input b p ln tbl .RNUM (rnumValNoExp (extractLex input b p))
    | 7 => emitHere input b p ln tbl .RNUM (rnumValExp (extractLex input b p))
    | 8 =>
      let ch := fetchAt input p
      if isDigitCh ch then
        if p + 1 - b > 30 then funLongBranch input b (p+1) ln tbl
        else .cont ⟨81, b, p+1, ln, tbl⟩
      else if isAlphaCh ch then
        if p + 1 - b > 30 then funLongBranch input b (p+1) ln tbl
        else .cont ⟨8, b, p+1, ln, tbl⟩
      else emitHere input b p ln tbl .FUNID 0
    | 9 =>
      let ch := fetchAt input p
      if isLowerCh ch then .cont ⟨9, b, p+1, ln, tbl⟩
      else emitHere input b p ln tbl .RUID 0
    | 19 =>
      let ch := fetchAt input p
      if isAlphaCh ch then .cont ⟨8, b, p+1, ln, tbl⟩
      else if isDigitCh ch then .cont ⟨81, b, p+1, ln, tbl⟩
      else emitHere input b p ln tbl .MAIN 0
    | 23 => emitHere input b p ln tbl .SQL 0
    | 24 => emitHere input b p ln tbl .SQR 0
    | 29 => emitHere input b p ln tbl .COMMA 0
    | 30 => emitHere input b p ln tbl .SEM 0
    | 31 => emitHere input b p ln tbl .COLON 0
    | 34 => emitHere input b p ln tbl .OP 0
    | 35 => emitHere input b p ln tbl .CL 0
    | 42 => emitHere input b p ln tbl .PLUS 0
    | 43 => emitHere input b p ln tbl .MINUS 0
    | 44 => emitHere input b p ln tbl .MUL 0
    | 45 => emitHere input b p ln tbl .DIV 0
    | 50 => emitHere input b p ln tbl .AND 0
    | 51 => emitHere input b p ln tbl .OR 0
    | 52 => emitHere input b p ln tbl .NOT 0
    | 53 =>
      let ch := fetchAt input p
      if ch = '-' then .cont ⟨66, b, p+1, ln, tbl⟩
      else if ch = '=' then .cont ⟨54, b, p+1, ln, tbl⟩
      else emitHere input b p ln tbl .LT 0
    | 54 => emitHere input b p ln tbl .LE 0
    | 55 => emitHere input b p ln tbl .EQ 0
    | 56 =>
      let ch := fetchAt input p
      if ch = '=' then .cont ⟨57, b, p+1, ln, tbl⟩
      else emitHere input b p ln tbl .GT 0
    | 57 => emitHere input b p ln tbl .GE 0
    | 58 => emitHere input b p ln tbl .NE 0
    | 59 => emitHere input b p ln tbl .DOT 0
    | 60 =>
      let ch := fetchAt input p
      if isDigitCh ch then .cont ⟨61, b, p+1, ln, tbl⟩
      else emitHere input b (p-1) ln tbl .NUM
        (natOfDigits (extractLex input b (p-1)))
    | 61 =>
      let ch := fetchAt input p
      if isDigitCh ch then .cont ⟨6, b, p+1, ln, tbl⟩
      else emitHere input b p ln tbl .LEXICAL_ERROR 0
    | 62 =>
      let ch := fetchAt input p
      if isDigitCh ch then .cont ⟨64, b, p+1, ln, tbl⟩
      else if ch = '+' ∨ ch = '-' then .cont ⟨63, b, p+1, ln, tbl⟩
      else emitHere input b p ln tbl .LEXICAL_ERROR 0
    | 63 =>
      let ch := fetchAt input p
      if isDigitCh ch then .cont ⟨64, b, p+1, ln, tbl⟩
      else emitHere input b p ln tbl .LEXICAL_ERROR 0
    | 64 =>
      let ch := fetchAt input p
      if isDigitCh ch then .cont ⟨7, b, p+1, ln, tbl⟩
      else emitHere input b p ln tbl .LEXICAL_ERROR 0
    | 65 =>
      match findNewlineFrom input p with
      | some q =>
        emitTok (lookupOrAddToken tbl (extractLex input b p) .COMMENT 0)
          (q+1) (ln+1)
      | none => .diverge
    | 66 =>
      let ch := fetchAt input p
      if ch = '-' then .cont ⟨67, b, p+1, ln, tbl⟩
      else emitHere input b (p-1) ln tbl .LT 0
    | 67 =>
      let ch := fetchAt input p
      if ch = '-' then .cont ⟨1, b, p+1, ln, tbl⟩
      else emitHere input b p ln tbl .LEXICAL_ERROR 0
    | 68 =>
      let ch := fetchAt input p
      if ch = '=' then .cont ⟨55, b, p+1, ln, tbl⟩
      else emitHere input b p ln tbl .LEXICAL_ERROR 0
    | 69 =>
      let ch := fetchAt input p
      if ch = 'm' then .cont ⟨70, b, p+1, ln, tbl⟩
      else if isAlphaCh ch then .cont ⟨8, b, p+1, ln, tbl⟩
      else emitHere input b p ln tbl .LEXICAL_ERROR 0
    | 70 =>
      let ch := fetchAt input p
      if isDigitCh ch then .cont ⟨81, b, p+1, ln, tbl⟩
      else if ch = 'a' then .cont ⟨71, b, p+1, ln, tbl⟩
      else if isAlphaCh ch then .cont ⟨8, b, p+1, ln, tbl⟩
      else emitHere input b p ln tbl .FUNID 0
    | 71 =>
      let ch := fetchAt input p
      if isDigitCh ch then .cont ⟨81, b, p+1, ln, tbl⟩
      else if ch = 'i' then .cont ⟨72, b, p+1, ln, tbl⟩
      else if isAlphaCh ch then .cont ⟨8, b, p+1, ln, tbl⟩
      else emitHere input b p ln tbl .FUNID 0
    | 72 =>
      let ch := fetchAt input p
      if isDigitCh ch then .cont ⟨81, b, p+1, ln, tbl⟩
      else if ch = 'n' then .cont ⟨19, b, p+1, ln, tbl⟩
      else if isAlphaCh ch then .cont ⟨8, b, p+1, ln, tbl⟩
      else emitHere input b p ln tbl .FUNID 0
    | 73 =>
      let ch := fetchAt input p
      if ch = '@' then .cont ⟨74, b, p+1, ln, tbl⟩
      else emitHere input b p ln tbl .LEXICAL_ERROR 0
    | 74 =>
      let ch := fetchAt input p
      if ch = '@' then .cont ⟨51, b, p+1, ln, tbl⟩
      else emitHere input b p ln tbl .LEXICAL_ERROR 0
    | 75 =>
      let ch := fetchAt input p
      if isLowerCh ch then .cont ⟨9, b, p+1, ln, tbl⟩
      else emitHere input b p ln tbl .LEXICAL_ERROR 0
    | 76 =>
      let ch := fetchAt input p
      if ch = '&' then .cont ⟨77, b, p+1, ln, tbl⟩
      else emitHere input b p ln tbl .LEXICAL_ERROR 0
    | 77 =>
      let ch := fetchAt input p
      if ch = '&' then .cont ⟨50, b, p+1, ln, tbl⟩
      else emitHere input b p ln tbl .LEXICAL_ERROR 0
    | 78 =>
      let ch := fetchAt input p
      if ch = '=' then .cont ⟨58, b, p+1, ln, tbl⟩
      else emitHere input b p ln tbl .LEXICAL_ERROR 0
    | 79 =>
      let ch := fetchAt input p
      if isLowerCh ch then .cont ⟨3, b, p+1, ln, tbl⟩
      else if isVarDigit ch then .cont ⟨80, b, p+1, ln, tbl⟩
      else
        emitHere input b p ln tbl
          ((findKeyword (extractLex input b p)).getD .FIELDID) 0
    | 80 =>
      let ch := fetchAt input p
      if isVarDigit ch then
        if p + 1 - b > 20 then idLongBranch input b (p+1) ln tbl
        else .cont ⟨4, b, p+1, ln, tbl⟩
      else if ¬ isBD ch then emitHere input b p ln tbl .ID 0
      else if p + 1 - b > 20 then idLongBranch input b (p+1) ln tbl
      else .cont ⟨80, b, p+1, ln, tbl⟩
    | 81 =>
      let ch := fetchAt input p
      if ¬ isDigitCh ch then emitHere input b p ln tbl .FUNID 0
      else if p + 1 - b > 30 then funLongBranch input b (p+1) ln tbl
      else .cont ⟨81, b, p+1, ln, tbl⟩
    | _ => .nullRes

/-- Result of one getNextToken call.  diverge models the comment loop
running past the end of the file without meeting a newline. -/
inductive LexRes where
  | tok (t : TokNode) (p line : Nat) (tbl : List Entry)
  | diverge
  | nullRes
  | fuelOut
deriving DecidableEq, Repr

/-- The while-true loop of getNextToken, with explicit fuel. -/
def runDFA (input : List Char) : Nat → Cfg → LexRes
  | 0, _ => .fuelOut
  | fuel+1, c =>
    match dfaStep input c with
    | .cont c' => runDFA input fuel c'
    | .emit t p ln tbl => .tok t p ln tbl
    | .diverge => .diverge
    | .nullRes => .nullRes

/-- getNextToken: the begin cursor starts just past the last consumed
character, in state 0. -/
def getNextToken (input : List Char) (fuel p ln : Nat)
    (tbl : List Entry) : LexRes :=
  runDFA input fuel ⟨0, p, p, ln, tbl⟩

/-- The getAllTokens loop: collect tokens until the DOLLAR end-of-input
token.  The boolean records whether the loop finished normally. -/
def getAllTokensAux (input : List Char) (stepFuel : Nat) :
    Nat → Nat → Nat → List Entry → List TokNode →
    List TokNode × List Entry × Bool
  | 0, _, _, tbl, acc => (acc.reverse, tbl, false)
  | callFuel+1, p, ln, tbl, acc =>
    match getNextToken input stepFuel p ln tbl with
    | .tok t p' ln' tbl' =>
      if t.entry.tokenType = .DOLLAR then ((t :: acc).reverse, tbl', true)
      else getAllTokensAux input stepFuel callFuel p' ln' tbl' (t :: acc)
    | _ => (acc.reverse, tbl, false)

/-- getAllTokens: empty symbol table, cursor at the start, line 1. -/
def getAllTokens (input : List Char) (fuel : Nat) :
    List TokNode × List Entry × Bool :=
  getAllTokensAux input fuel fuel 0 1 [] []

/-! ## FIRST sets and the parse table -/

/-- Guarded insertion into a FIRST or FOLLOW list: append the token at
the tail unless it is already present. -/
def ffInsert (res : List Tok) (t : Tok) : List Tok :=
  if t ∈ res then res else res ++ [t]

/-- Inner loop of getFirstOfRhs over the FIRST list of a non-terminal:
copy every token except EPS, and record whether EPS was seen. -/
def addFirstNoEps (res : List Tok) (src : List Tok) : List Tok × Bool :=
  src.foldl
    (fun acc tk =>
      if tk = .EPS then (acc.1, true) else (ffInsert acc.1 tk, acc.2))
    (res, false)

/-- Walk of getFirstOfRhs: a terminal is inserted and stops the walk; a
non-terminal contributes its FIRST list without EPS and the walk goes
on only when EPS was present; reaching the end inserts EPS. -/
def getFirstOfRhsAux (autoFirst : NT → List Tok) :
    List Sym → List Tok → List Tok
  | [], res => ffInsert res .EPS
  | .t tk :: _, res => ffInsert res tk
  | .nt n :: rest, res =>
    let r := addFirstNoEps res (autoFirst n)
    if r.2 then getFirstOfRhsAux autoFirst rest r.1 else r.1

/-- getFirstOfRhs: FIRST of a right-hand side, from empty. -/
def getFirstOfRhs (autoFirst : NT → List Tok) (rhs : List Sym) : List Tok :=
  getFirstOfRhsAux autoFirst rhs []

/-- The parse table: one optional rule per non-terminal and token. -/
abbrev PTable : Type := NT → Tok → Option GRule

/-- Assignment to one parse-table cell. -/
def updateCell (tbl : PTable) (n : NT) (tk : Tok) (r : GRule) : PTable :=
  fun m t => if m = n ∧ t = tk then some r else tbl m t

/-- Write a rule into the row cells for all listed tokens, recording a
conflict for every cell that was already occupied; the later rule
overwrites the earlier one. -/
def writeRow (n : NT) (r : GRule) (toks : List Tok)
    (acc : PTable × List (NT × Tok)) : PTable × List (NT × Tok) :=
  toks.foldl
    (fun a tk =>
      let cs := if (a.1 n tk).isSome then a.2 ++ [(n, tk)] else a.2
      (updateCell a.1 n tk r, cs))
    acc

/-- Loop body of addRulesToParseTable for one rule: cells for the FIRST
of the right-hand side and, when that FIRST holds EPS, also cells for
the FOLLOW of the left-hand side. -/
def addRuleToParseTable (autoFirst autoFollow : NT → List Tok)
    (acc : PTable × List (NT × Tok)) (r : GRule) :
    PTable × List (NT × Tok) :=
  let f := getFirstOfRhs autoFirst r.rhs
  let acc1 := writeRow r.lhs r f acc
  if .EPS ∈ f then writeRow r.lhs r (autoFollow r.lhs) acc1 else acc1

/-- addRulesToParseTable over the rules in file order, from the table
initializeParseTable fills with empty cells. -/
def addRulesToParseTable (autoFirst autoFollow : NT → List Tok)
    (rules : List GRule) : PTable × List (NT × Tok) :=
  rules.foldl (addRuleToParseTable autoFirst autoFollow)
    ((fun _ _ => none), [])

/-- Guarded insertion into the FIRST list of one non-terminal, with the
modified flag of computeFirstSets. -/
def firstInsert (st : NT → List Tok) (n : NT) (tk : Tok) :
    (NT → List Tok) × Bool :=
  if tk ∈ st n then (st, false)
  else ((fun m => if m = n then st n ++ [tk] else st m), true)

/-- One step of the inner loop of computeFirstSets over the FIRST list
of a right-hand non-terminal: EPS only sets the continuation flag,
every other token is inserted into the FIRST list of the left-hand
side, accumulating the modified flag. -/
def firstAddStep (lhs : NT) (acc : ((NT → List Tok) × Bool) × Bool)
    (tk : Tok) : ((NT → List Tok) × Bool) × Bool :=
  if tk = .EPS then (acc.1, true)
  else
    let r := firstInsert acc.1.1 lhs tk
    ((r.1, acc.1.2 || r.2), acc.2)

/-- Inner loop of computeFirstSets over the FIRST list of a right-hand
non-terminal. -/
def firstAddFrom (st : NT → List Tok) (lhs : NT) (src : List Tok) :
    ((NT → List Tok) × Bool) × Bool :=
  src.foldl (firstAddStep lhs) ((st, false), false)

/-- Walk of one rule inside computeFirstSets. -/
def firstWalkRhs (lhs : NT) : List Sym → (NT → List Tok) →
    (NT → List Tok) × Bool
  | [], st => firstInsert st lhs .EPS
  | .t tk :: _, st => firstInsert st lhs tk
  | .nt n :: rest, st =>
    let r := firstAddFrom st lhs (st n)
    if r.2 then
      let r2 := firstWalkRhs lhs rest r.1.1
      (r2.1, r.1.2 || r2.2)
    else (r.1.1, r.1.2)

/-- Processing of one rule inside a computeFirstSets pass. -/
def firstPassStep (acc : (NT → List Tok) × Bool) (r : GRule) :
    (NT → List Tok) × Bool :=
  let w := firstWalkRhs r.lhs r.rhs acc.1
  (w.1, acc.2 || w.2)

/-- One full pass of computeFirstSets over all rules, with the pass
modification flag. -/
def firstPassRules (rules : List GRule) (st : NT → List Tok) :
    (NT → List Tok) × Bool :=
  rules.foldl firstPassStep (st, false)

/-- computeFirstSets: repeat passes until one makes no modification.
The boolean records that the loop exited because a pass changed
nothing, rather than by fuel exhaustion. -/
def computeFirstSets (rules : List GRule) :
    Nat → (NT → List Tok) → (NT → List Tok) × Bool
  | 0, st => (st, false)
  | fuel+1, st =>
    let r := firstPassRules rules st
    if r.2 then computeFirstSets rules fuel r.1 else (r.1, true)

/-! ## Predictive parser loop -/

/-- Parser diagnostics, carrying exactly the data the printf calls of
parseTokens interpolate. -/
inductive PDiag where
  | unrecognized (line : Nat) (lex : List Char)
  | tooLongId (line : Nat) (lex : List Char)
  | tooLongFun (line : Nat) (lex : List Char)
  | mismatch (line : Nat) (actual : Tok) (lex : List Char) (expected : Tok)
  | noEntry (line : Nat) (actual : Tok) (lex : List Char) (top : NT)
deriving DecidableEq, Repr

/-- Parser state: stack of grammar symbols (each stack node of the C
carries a parse node whose decisions depend only on its symbol; an
expansion pushes the right-hand side reversed), remaining input and the
syntax-error flag. -/
structure PState where
  stack : List Sym
  inp : List TokNode
  err : Bool
deriving DecidableEq, Repr

/-- One iteration of the parseTokens while loop, returning the next
state and the diagnostics the iteration printed.  Outside the loop
guard (empty stack or input) the state is returned unchanged. -/
def parseStep (table : NT → Tok → Option GRule) (follow : NT → List Tok)
    (s : PState) : PState × List PDiag :=
  match s.stack, s.inp with
  | [], _ => (s, [])
  | _ :: _, [] => (s, [])
  | topSym :: rest, tn :: inpRest =>
    let tt := tn.entry.tokenType
    if tt = .COMMENT ∨ tokIdx .LEXICAL_ERROR ≤ tokIdx tt then
      let d : List PDiag :=
        if tt = .LEXICAL_ERROR then [.unrecognized tn.lineNum tn.entry.lexeme]
        else if tt = .ID_LENGTH_EXC then [.tooLongId tn.lineNum tn.entry.lexeme]
        else if tt = .FUN_LENGTH_EXC then [.tooLongFun tn.lineNum tn.entry.lexeme]
        else []
      (⟨s.stack, inpRest, s.err || decide (tt ≠ .COMMENT)⟩, d)
    else
      match topSym with
      | .t tk =>
        if tk = .EPS then (⟨rest, s.inp, s.err⟩, [])
        else if tk = tt then (⟨rest, inpRest, s.err⟩, [])
        else (⟨rest, s.inp, true⟩, [.mismatch tn.lineNum tt tn.entry.lexeme tk])
      | .nt n =>
        match table n tt with
        | some r => (⟨r.rhs.reverse ++ rest, s.inp, s.err⟩, [])
        | none =>
          let d : List PDiag := [.noEntry tn.lineNum tt tn.entry.lexeme n]
          if tt ∈ follow n then (⟨rest, s.inp, true⟩, d)
          else
            match inpRest with
            | [] => (⟨rest, [], true⟩, d)
            | _ :: _ => (⟨s.stack, inpRest, true⟩, d)

/-- Iterate parseTokens loop steps while the loop guard holds. -/
def iterSteps (table : NT → Tok → Option GRule) (follow : NT → List Tok) :
    Nat → PState → PState × List PDiag
  | 0, s => (s, [])
  | n+1, s =>
    if s.stack = [] ∨ s.inp = [] then (s, [])
    else
      let r := parseStep table follow s
      let r2 := iterSteps table follow n r.1
      (r2.1, r.2 ++ r2.2)

/-! ## Grammar loading -/

/-- The nonTerminalToString table (angle-bracketed names). -/
def ntName : NT → String
  | .program => "<program>"
  | .otherFunctions => "<otherFunctions>"
  | .mainFunction => "<mainFunction>"
  | .stmts => "<stmts>"
  | .stmt => "<stmt>"
  | .function => "<function>"
  | .input_par => "<input_par>"
  | .output_par => "<output_par>"
  | .parameter_list => "<parameter_list>"
  | .dataType => "<dataType>"
  | .remaining_list => "<remaining_list>"
  | .primitiveDatatype => "<primitiveDatatype>"
  | .constructedDatatype => "<constructedDatatype>"
  | .typeDefinitions => "<typeDefinitions>"
  | .typeDefinition => "<typeDefinition>"
  | .declarations => "<declarations>"
  | .declaration => "<declaration>"
  | .otherStmts => "<otherStmts>"
  | .returnStmt => "<returnStmt>"
  | .definetypestmt => "<definetypestmt>"
  | .fieldDefinition => "<fieldDefinition>"
  | .fieldDefinitions => "<fieldDefinitions>"
  | .fieldType => "<fieldType>"
  | .moreFields => "<moreFields>"
  | .global_or_not => "<global_or_not>"
  | .assignmentStmt => "<assignmentStmt>"
  | .iterativeStmt => "<iterativeStmt>"
  | .conditionalStmt => "<conditionalStmt>"
  | .elsePart => "<elsePart>"
  | .ioStmt => "<ioStmt>"
  | .funCallStmt => "<funCallStmt>"
  | .option_single_constructed => "<option_single_constructed>"
  | .outputParameters => "<outputParameters>"
  | .inputParameters => "<inputParameters>"
  | .highPrecedenceOperators => "<highPrecedenceOperators>"
  | .lowPrecedenceOperators => "<lowPrecedenceOperators>"
  | .oneExpansion => "<oneExpansion>"
  | .moreExpansions => "<moreExpansions>"
  | .expPrime => "<expPrime>"
  | .term => "<term>"
  | .termPrime => "<termPrime>"
  | .factor => "<factor>"
  | .more_ids => "<more_ids>"
  | .A => "<A>"
  | .idList => "<idList>"
  | .relationalOp => "<relationalOp>"
  | .optionalReturn => "<optionalReturn>"
  | .var => "<var>"
  | .logicalOp => "<logicalOp>"
  | .arithmeticExpression => "<arithmeticExpression>"
  | .SingleOrRecId => "<singleOrRecId>"
  | .booleanExpression => "<booleanExpression>"
  | .NT_NOT_FOUND => ""
  | .actualOrRedefined => "<actualOrRedefined>"

/-- The tokenToString table. -/
def tokName : Tok → String
  | .ASSIGNOP => "TK_ASSIGNOP"
  | .COMMENT => "TK_COMMENT"
  | .FIELDID => "TK_FIELDID"
  | .ID => "TK_ID"
  | .NUM => "TK_NUM"
  | .RNUM => "TK_RNUM"
  | .FUNID => "TK_FUNID"
  | .RUID => "TK_RUID"
  | .WITH => "TK_WITH"
  | .PARAMETERS => "TK_PARAMETERS"
  | .END => "TK_END"
  | .WHILE => "TK_WHILE"
  | .UNION => "TK_UNION"
  | .ENDUNION => "TK_ENDUNION"
  | .DEFINETYPE => "TK_DEFINETYPE"
  | .AS => "TK_AS"
  | .TYPE => "TK_TYPE"
  | .MAIN => "TK_MAIN"
  | .GLOBAL => "TK_GLOBAL"
  | .PARAMETER => "TK_PARAMETER"
  | .LIST => "TK_LIST"
  | .SQL => "TK_SQL"
  | .SQR => "TK_SQR"
  | .INPUT => "TK_INPUT"
  | .OUTPUT => "TK_OUTPUT"
  | .INT => "TK_INT"
  | .REAL => "TK_REAL"
  | .COMMA => "TK_COMMA"
  | .SEM => "TK_SEM"
  | .COLON => "TK_COLON"
  | .DOT => "TK_DOT"
  | .ENDWHILE => "TK_ENDWHILE"
  | .OP => "TK_OP"
  | .CL => "TK_CL"
  | .IF => "TK_IF"
  | .THEN => "TK_THEN"
  | .ENDIF => "TK_ENDIF"
  | .READ => "TK_READ"
  | .WRITE => "TK_WRITE"
  | .RETURN => "TK_RETURN"
  | .PLUS => "TK_PLUS"
  | .MINUS => "TK_MINUS"
  | .MUL => "TK_MUL"
  | .DIV => "TK_DIV"
  | .CALL => "TK_CALL"
  | .RECORD => "TK_RECORD"
  | .ENDRECORD => "TK_ENDRECORD"
  | .ELSE => "TK_ELSE"
  | .AND => "TK_AND"
  | .OR => "TK_OR"
  | .NOT => "TK_NOT"
  | .LT => "TK_LT"
  | .LE => "TK_LE"
  | .EQ => "TK_EQ"
  | .GT => "TK_GT"
  | .GE => "TK_GE"
  | .NE => "TK_NE"
  | .EPS => "TK_EPS"
  | .DOLLAR => "TK_DOLLAR"
  | .LEXICAL_ERROR => "LEXICAL_ERROR"
  | .ID_LENGTH_EXC => "IDENTIFIER_LENGTH_EXCEEDED"
  | .FUN_LENGTH_EXC => "FUNCTION_NAME_LENGTH_EXCEEDED"
  | .TK_NOT_FOUND => ""

/-- The non-terminals getNonTerminalFromString scans, in enum order;
the loop bound NT_NOT_FOUND leaves actualOrRedefined outside the scan. -/
def ntScanOrder : List NT :=
  [.program, .otherFunctions, .mainFunction, .stmts, .stmt, .function,
   .input_par, .output_par, .parameter_list, .dataType, .remaining_list,
   .primitiveDatatype, .constructedDatatype, .typeDefinitions,
   .typeDefinition, .declarations, .declaration, .otherStmts,
   .returnStmt, .definetypestmt, .fieldDefinition, .fieldDefinitions,
   .fieldType, .moreFields, .global_or_not, .assignmentStmt,
   .iterativeStmt, .conditionalStmt, .elsePart, .ioStmt, .funCallStmt,
   .option_single_constructed, .outputParameters, .inputParameters,
   .highPrecedenceOperators, .lowPrecedenceOperators, .oneExpansion,
   .moreExpansions, .expPrime, .term, .termPrime, .factor, .more_ids,
   .A, .idList, .relationalOp, .optionalReturn, .var, .logicalOp,
   .arithmeticExpression, .SingleOrRecId, .booleanExpression]

/-- The tokens getTokenFromString scans, in enum order below the bound
TK_NOT_FOUND. -/
def tokScanOrder : List Tok :=
  [.ASSIGNOP, .COMMENT, .FIELDID, .ID, .NUM, .RNUM, .FUNID, .RUID,
   .WITH, .PARAMETERS, .END, .WHILE, .UNION, .ENDUNION, .DEFINETYPE,
   .AS, .TYPE, .MAIN, .GLOBAL, .PARAMETER, .LIST, .SQL, .SQR, .INPUT,
   .OUTPUT, .INT, .REAL, .COMMA, .SEM, .COLON, .DOT, .ENDWHILE, .OP,
   .CL, .IF, .THEN, .ENDIF, .READ, .WRITE, .RETURN, .PLUS, .MINUS,
   .MUL, .DIV, .CALL, .RECORD, .ENDRECORD, .ELSE, .AND, .OR, .NOT,
   .LT, .LE, .EQ, .GT, .GE, .NE, .EPS, .DOLLAR, .LEXICAL_ERROR,
   .ID_LENGTH_EXC, .FUN_LENGTH_EXC]

/-- getNonTerminalFromString. -/
def getNonTerminalFromString (s : String) : NT :=
  (ntScanOrder.find? (fun n => ntName n = s)).getD .NT_NOT_FOUND

/-- getTokenFromString. -/
def getTokenFromString (s : String) : Tok :=
  (tokScanOrder.find? (fun t => tokName t = s)).getD .TK_NOT_FOUND

/-- Right-hand symbol resolution of readGrammar: an angle bracket opens
a non-terminal, anything else is a terminal name that receives the
TK_ prefix before resolution. -/
def parseRhsSymbol (s : String) : Sym :=
  if s.startsWith "<" then .nt (getNonTerminalFromString s)
  else .t (getTokenFromString ("TK_" ++ s))

/-- One grammar line: the first whitespace token is the left-hand
non-terminal, the rest is the right-hand side. -/
def parseGrammarLine (l : String × List String) : GRule :=
  ⟨getNonTerminalFromString l.1, l.2.map parseRhsSymbol⟩

/-- Outcome of the grammar loading phase: either an exit of the whole
process, or a normal return into the rest of the compilation. -/
inductive LoadOutcome where
  | fatalExit (msg : String)
  | continueRun (rules : List GRule) (diags : List String)
deriving DecidableEq, Repr

/-- Whether the outcome terminates the process. -/
def LoadOutcome.isFatal : LoadOutcome → Bool
  | .fatalExit _ => true
  | .continueRun _ _ => false

/-- readGrammar, over the open result of the grammar file: when fopen
fails the function prints the diagnostic and returns, leaving the rule
array empty; otherwise every line is parsed into a rule. -/
def readGrammar (file : Option (List (String × List String))) :
    LoadOutcome :=
  match file with
  | none => .continueRun [] ["Could not open grammar file"]
  | some lines => .continueRun (lines.map parseGrammarLine) []

/-! ## Theorems: lexer claims on concrete inputs -/

/-- C10: lexing the empty input returns exactly one token, the
end-of-input token with empty lexeme and line number 1; its entry is
built fresh and the symbol table stays empty. -/
theorem c10_empty_input_single_dollar_token :
    getAllTokens [] 4 = ([⟨⟨[], .DOLLAR, 0⟩, 1⟩], [], true) := by decide

/-- C9 is refuted by the code: on an input that ends inside a comment
with no final newline, the comment-skipping loop of state 65 only
stops at a newline, never at the end-of-input sentinel, so getNextToken
does not terminate no matter how much fuel it receives. -/
theorem c9_unterminated_comment_never_returns :
    ∀ fuel : Nat, getNextToken ['%'] (fuel + 2) 0 1 [] = .diverge := by
  intro fuel
  have h1 : dfaStep ['%'] ⟨0, 0, 0, 1, []⟩ = .cont ⟨65, 0, 1, 1, []⟩ := by
    decide
  have h2 : dfaStep ['%'] ⟨65, 0, 1, 1, []⟩ = .diverge := by decide
  show runDFA ['%'] (fuel + 1 + 1) ⟨0, 0, 0, 1, []⟩ = .diverge
  simp only [runDFA, h1, h2]

/-- C3 is refuted by the code: the state 7 conversion computes the
exponent from raw character codes (lexeme[i] times 10 plus lexeme[i+1],
with no subtraction of the code of zero), so the literal 1.23E11 is
stored with the value 1.23 times 10 to the 539 (539 = 49 * 10 + 49),
not 1.23 times 10 to the 11 as the claim states. -/
theorem c3_exponent_uses_char_codes :
    (getAllTokens "1.23E11".toList 20).1
      = [⟨⟨"1.23E11".toList, .RNUM, rnumValExp "1.23E11".toList⟩, 1⟩,
         ⟨⟨[], .DOLLAR, 0⟩, 1⟩]
    ∧ rnumValExp "1.23E11".toList = (123 / 100 : ℚ) * 10 ^ (539 : ℕ)
    ∧ (123 / 100 : ℚ) * 10 ^ (539 : ℕ) ≠ (123 / 100 : ℚ) * 10 ^ (11 : ℕ) := by
  refine ⟨rfl, ?_, ?_⟩
  · have e0 : "1.23E11".toList = ['1', '.', '2', '3', 'E', '1', '1'] := rfl
    have e1 : List.takeWhile (fun c : Char => decide (c ≠ '.'))
        ['1', '.', '2', '3', 'E', '1', '1'] = ['1'] := by decide
    have c1 : '1'.toNat = 49 := rfl
    have c2 : '2'.toNat = 50 := rfl
    have c3 : '3'.toNat = 51 := rfl
    have g2 : chCode ['1', '.', '2', '3', 'E', '1', '1'] 2 = 50 := by
      simp [chCode, List.getD_cons_succ, List.getD_cons_zero, c2]
    have g3 : chCode ['1', '.', '2', '3', 'E', '1', '1'] 3 = 51 := by
      simp [chCode, List.getD_cons_succ, List.getD_cons_zero, c3]
    have g5 : List.getD ['1', '.', '2', '3', 'E', '1', '1'] 5 nulChar = '1' := by
      decide
    have g6 : List.getD ['1', '.', '2', '3', 'E', '1', '1'] 6 nulChar = '1' := by
      decide
    have gn : natOfDigits ['1'] = 1 := by
      simp [natOfDigits, c1]
      norm_num
    have hne : ¬ ('1' = '-') := by decide
    have hd9 : ('0' ≤ '1' ∧ '1' ≤ '9') := by decide
    rw [e0]
    simp only [rnumValExp, e1, List.length_cons, List.length_nil, gn]
    norm_num [g2, g3, g5, g6, c1, qpow10, isDigitCh, hne, hd9,
      Int.toNat_ofNat]
    rw [show ((539 : ℤ).toNat) = (539 : ℕ) from rfl]
    norm_num
  · intro h
    have h2 : (123 / 100 : ℚ) ≠ 0 := by norm_num
    have h3 : ((10 : ℚ) ^ (539 : ℕ)) = 10 ^ (11 : ℕ) :=
      mul_left_cancel₀ h2 h
    have h5 : ((10 : ℚ) ^ (11 : ℕ)) * 10 ^ (528 : ℕ) = 10 ^ (11 : ℕ) * 1 := by
      rw [← pow_add, show (11 + 528 : ℕ) = 539 from rfl, h3, mul_one]
    have h6 : ((10 : ℚ) ^ (528 : ℕ)) = 1 :=
      mul_left_cancel₀ (by positivity) h5
    have h7 : (1 : ℚ) < 10 ^ (528 : ℕ) := one_lt_pow₀ (by norm_num) (by norm_num)
    rw [h6] at h7
    exact lt_irrefl 1 h7

/-- C6 is refuted by the code for the second identifier shape: the
20-character variable identifier made of b, eighteen letters a and the
digit 2 matches [b-d][a-z]+[2-7]+, yet the DFA (state 79 sends every
lowercase letter to the field-identifier state 3, which has no digit
transition) emits a 19-character field identifier followed by a number
token instead of one ordinary identifier token. -/
theorem c6_letter_digit_identifier_not_lexed_as_id :
    ((getAllTokens ('b' :: List.replicate 18 'a' ++ ['2']) 30).1.map
        (fun t => (t.entry.tokenType, t.entry.lexeme)))
      = [(.FIELDID, 'b' :: List.replicate 18 'a'), (.NUM, ['2']),
         (.DOLLAR, [])] := by decide

/-- C8 is refuted by the code: when the grammar file cannot be opened,
readGrammar prints the diagnostic and returns normally instead of
terminating the process. -/
theorem c8_unopenable_grammar_not_fatal :
    (readGrammar none).isFatal = false := by decide

/-- C8 amended: when the grammar file cannot be opened, readGrammar
prints a diagnostic and returns with the rule array left empty, and the
compilation continues. -/
theorem c8_unopenable_grammar_continues_empty :
    readGrammar none = .continueRun [] ["Could not open grammar file"] := rfl

/-! ## Symbol table interning -/

/-- The interning invariant: no two symbol table entries carry the
same lexeme. -/
def nodupLexemes (tbl : List Entry) : Prop :=
  (tbl.map (fun e => e.lexeme)).Nodup

theorem nodupLexemes_nil : nodupLexemes [] := List.nodup_nil

theorem lookupOrAddToken_nodup (tbl : List Entry) (lex : List Char)
    (k : Tok) (v : ℚ) (h : nodupLexemes tbl) :
    nodupLexemes (lookupOrAddToken tbl lex k v).2 := by
  unfold lookupOrAddToken lookupToken
  cases hf : tbl.find? (fun e => decide (e.lexeme = lex)) with
  | some e => exact h
  | none =>
    simp only [nodupLexemes, List.map_append, List.map_cons, List.map_nil]
    rw [List.nodup_append]
    refine ⟨h, List.nodup_singleton _, ?_⟩
    intro a ha
    simp only [List.mem_singleton]
    intro hb
    subst hb
    obtain ⟨e2, he2, hlex⟩ := List.mem_map.1 ha
    have hne := List.find?_eq_none.1 hf e2 he2
    simp only [decide_eq_true_eq] at hne
    exact hne (by rw [hlex])

/-- The symbol table carried by a step outcome, when there is one. -/
def stepTbl : StepOut → Option (List Entry)
  | .cont c => some c.tbl
  | .emit _ _ _ tbl => some tbl
  | .diverge => none
  | .nullRes => none

theorem stepTbl_cont (c : Cfg) : stepTbl (.cont c) = some c.tbl := rfl

theorem stepTbl_emit (t : TokNode) (p ln : Nat) (tbl : List Entry) :
    stepTbl (.emit t p ln tbl) = some tbl := rfl

theorem stepTbl_diverge : stepTbl .diverge = none := rfl

theorem stepTbl_nullRes : stepTbl .nullRes = none := rfl

theorem stepTbl_emitTok (r : Entry × List Entry) (p ln : Nat) :
    stepTbl (emitTok r p ln) = some r.2 := rfl

theorem stepTbl_emitHere (input : List Char) (b p ln : Nat)
    (tbl : List Entry) (k : Tok) (v : ℚ) :
    stepTbl (emitHere input b p ln tbl k v)
      = some (lookupOrAddToken tbl (extractLex input b p) k v).2 := rfl

theorem stepTbl_idLongBranch (input : List Char) (b p ln : Nat)
    (tbl : List Entry) :
    stepTbl (idLongBranch input b p ln tbl)
      = some (lookupOrAddToken tbl
          ((extractLex input b p).take 20 ++ ['.', '.', '.'])
          .ID_LENGTH_EXC 0).2 := by
  simp only [idLongBranch]
  split <;> rfl

theorem stepTbl_funLongBranch (input : List Char) (b p ln : Nat)
    (tbl : List Entry) :
    stepTbl (funLongBranch input b p ln tbl)
      = some (lookupOrAddToken tbl
          ((extractLex input b p).take 30 ++ ['.', '.', '.'])
          .FUN_LENGTH_EXC 0).2 := rfl

theorem predIte {α : Type} {P : α → Prop} (c : Prop) [Decidable c]
    (a b : Option α) (h1 : ∀ x ∈ a, P x) (h2 : ∀ x ∈ b, P x) :
    ∀ x ∈ (if c then a else b), P x := by
  split
  · exact h1
  · exact h2

theorem predSome {α : Type} {P : α → Prop} (a : α) (h : P a) :
    ∀ x ∈ (some a : Option α), P x := by
  intro x hx
  rw [Option.mem_def, Option.some.injEq] at hx
  rw [← hx]
  exact h

theorem predNone {α : Type} {P : α → Prop} :
    ∀ x ∈ (none : Option α), P x := by
  intro x hx
  exact absurd hx (by simp)

/-- Every table a DFA step can produce keeps the interning invariant:
each emission site either leaves the table alone or goes through
lookupOrAddToken. -/
theorem dfaStep_nodup (input : List Char) (c : Cfg)
    (h : nodupLexemes c.tbl) :
    ∀ tb ∈ stepTbl (dfaStep input c), nodupLexemes tb := by
  obtain ⟨st, b, p, ln, tbl⟩ := c
  replace h : nodupLexemes tbl := h
  show ∀ tb ∈ stepTbl (dfaStep input ⟨st, b, p, ln, tbl⟩), nodupLexemes tb
  unfold dfaStep
  (try dsimp only) <;> split <;>
    (try dsimp only) <;>
    (try simp only [apply_ite stepTbl]) <;>
    (try simp only [stepTbl_emitHere, stepTbl_idLongBranch,
      stepTbl_funLongBranch, stepTbl_emitTok, stepTbl_cont, stepTbl_emit,
      stepTbl_diverge, stepTbl_nullRes]) <;>
    (repeat
      first
      | exact predSome _ h
      | exact predSome _ (lookupOrAddToken_nodup _ _ _ _ h)
      | exact predNone
      | refine predIte _ _ _ ?_ ?_
      | (simp only [stepTbl_emitHere, stepTbl_idLongBranch,
          stepTbl_funLongBranch, stepTbl_emitTok, stepTbl_cont,
          stepTbl_emit, stepTbl_diverge, stepTbl_nullRes])
      | split)

/-- The getNextToken loop keeps the interning invariant. -/
theorem runDFA_nodup (input : List Char) :
    ∀ (fuel : Nat) (c : Cfg) (t : TokNode) (p2 ln2 : Nat)
      (tbl2 : List Entry),
      nodupLexemes c.tbl → runDFA input fuel c = .tok t p2 ln2 tbl2 →
      nodupLexemes tbl2 := by
  intro fuel
  induction fuel with
  | zero =>
    intro c t p2 ln2 tbl2 hnd hr
    exact absurd hr (by simp [runDFA])
  | succ f ih =>
    intro c t p2 ln2 tbl2 hnd hr
    rw [runDFA] at hr
    cases hds : dfaStep input c with
    | cont c2 =>
      rw [hds] at hr
      exact ih c2 t p2 ln2 tbl2
        (dfaStep_nodup input c hnd c2.tbl (by rw [hds]; simp [stepTbl])) hr
    | emit t3 p3 ln3 tb3 =>
      rw [hds] at hr
      simp only [LexRes.tok.injEq] at hr
      obtain ⟨rfl, rfl, rfl, rfl⟩ := hr
      exact dfaStep_nodup input c hnd tb3 (by rw [hds]; simp [stepTbl])
    | diverge =>
      rw [hds] at hr
      exact absurd hr (by simp)
    | nullRes =>
      rw [hds] at hr
      exact absurd hr (by simp)

/-- The getAllTokens loop keeps the interning invariant. -/
theorem getAllTokensAux_nodup (input : List Char) (stepFuel : Nat) :
    ∀ (callFuel p ln : Nat) (tbl : List Entry) (acc : List TokNode),
      nodupLexemes tbl →
      nodupLexemes
        (getAllTokensAux input stepFuel callFuel p ln tbl acc).2.1 := by
  intro callFuel
  induction callFuel with
  | zero =>
    intro p ln tbl acc hnd
    simpa [getAllTokensAux] using hnd
  | succ f ih =>
    intro p ln tbl acc hnd
    rw [getAllTokensAux]
    cases hg : getNextToken input stepFuel p ln tbl with
    | tok t p2 ln2 tbl2 =>
      have h2 : nodupLexemes tbl2 :=
        runDFA_nodup input stepFuel _ t p2 ln2 tbl2 hnd hg
      by_cases hd : t.entry.tokenType = .DOLLAR
      · simp only [hd, if_pos]
        exact h2
      · simp only [if_neg hd]
        exact ih p2 ln2 tbl2 (t :: acc) h2
    | diverge => exact hnd
    | nullRes => exact hnd
    | fuelOut => exact hnd

/-- C7: symbol-table interning: after any run of the lexer no two
entries of the symbol table carry the identical lexeme, because every
emission site of getNextToken looks the lexeme up first and reuses the
existing entry verbatim, appending a fresh entry only when the lookup
fails. -/
theorem c7_symbol_table_interning (input : List Char) (fuel : Nat) :
    ((getAllTokens input fuel).2.1.map (fun e => e.lexeme)).Nodup :=
  getAllTokensAux_nodup input fuel fuel 0 1 [] [] nodupLexemes_nil

/-! ## Parse-table construction: last writer wins -/

/-- The cells the loop body of addRulesToParseTable writes for one
rule: the FIRST of the right-hand side and, when EPS is in it, also
the FOLLOW of the left-hand side. -/
def ruleWritesCell (autoFirst autoFollow : NT → List Tok) (r : GRule)
    (n : NT) (tk : Tok) : Bool :=
  decide (r.lhs = n) &&
    (decide (tk ∈ getFirstOfRhs autoFirst r.rhs) ||
      (decide (.EPS ∈ getFirstOfRhs autoFirst r.rhs) &&
        decide (tk ∈ autoFollow n)))

/-- The targeted cells as the claim states them: every terminal in
FIRST of the right-hand side other than EPS and, when EPS is in that
FIRST, every terminal in FOLLOW of the left-hand side. -/
def ruleWritesCellSpec (autoFirst autoFollow : NT → List Tok) (r : GRule)
    (n : NT) (tk : Tok) : Bool :=
  decide (r.lhs = n) &&
    ((decide (tk ∈ getFirstOfRhs autoFirst r.rhs) && decide (tk ≠ .EPS)) ||
      (decide (.EPS ∈ getFirstOfRhs autoFirst r.rhs) &&
        decide (tk ∈ autoFollow n)))

theorem updateCell_cell (tbl : PTable) (n0 : NT) (t : Tok) (r : GRule)
    (n : NT) (tk : Tok) :
    updateCell tbl n0 t r n tk
      = if n = n0 ∧ tk = t then some r else tbl n tk := rfl

theorem writeRow_cell (n0 : NT) (r : GRule) (n : NT) (tk : Tok) :
    ∀ (toks : List Tok) (acc : PTable × List (NT × Tok)),
      (writeRow n0 r toks acc).1 n tk
        = if n = n0 ∧ tk ∈ toks then some r else acc.1 n tk := by
  intro toks
  induction toks with
  | nil =>
    intro acc
    simp [writeRow]
  | cons t ts ih =>
    intro acc
    simp only [writeRow, List.foldl_cons] at ih ⊢
    rw [ih]
    by_cases h1 : n = n0
    · by_cases h2 : tk = t
      · by_cases h3 : tk ∈ ts <;>
          simp [h1, h2, h3, updateCell_cell, List.mem_cons]
      · by_cases h3 : tk ∈ ts <;>
          simp [h1, h2, h3, updateCell_cell, List.mem_cons]
    · simp [h1, updateCell_cell]

theorem addRuleToParseTable_cell (autoFirst autoFollow : NT → List Tok)
    (acc : PTable × List (NT × Tok)) (r : GRule) (n : NT) (tk : Tok) :
    (addRuleToParseTable autoFirst autoFollow acc r).1 n tk
      = if ruleWritesCell autoFirst autoFollow r n tk then some r
        else acc.1 n tk := by
  unfold addRuleToParseTable ruleWritesCell
  by_cases he : Tok.EPS ∈ getFirstOfRhs autoFirst r.rhs
  · rw [if_pos he, writeRow_cell, writeRow_cell]
    by_cases h1 : n = r.lhs
    · by_cases h2 : tk ∈ autoFollow r.lhs
      · simp [h1, h2, he]
      · by_cases h3 : tk ∈ getFirstOfRhs autoFirst r.rhs <;>
          simp [h1, h2, h3, he]
    · simp only [h1, false_and, if_false]
      refine (if_neg ?_).symm
      simp only [Bool.and_eq_true, decide_eq_true_eq]
      exact fun hc => h1 hc.1.symm
  · rw [if_neg he, writeRow_cell]
    by_cases h1 : n = r.lhs
    · by_cases h3 : tk ∈ getFirstOfRhs autoFirst r.rhs <;>
        simp [h1, h3, he]
    · simp only [h1, false_and, if_false]
      refine (if_neg ?_).symm
      simp only [Bool.and_eq_true, decide_eq_true_eq]
      exact fun hc => h1 hc.1.symm

theorem foldl_addRule_cell (autoFirst autoFollow : NT → List Tok)
    (n : NT) (tk : Tok) :
    ∀ (rules : List GRule) (acc : PTable × List (NT × Tok)),
      (rules.foldl (addRuleToParseTable autoFirst autoFollow) acc).1 n tk
        = ((rules.filter
            (fun r => ruleWritesCell autoFirst autoFollow r n tk)).getLast?
          ).elim (acc.1 n tk) some := by
  intro rules
  induction rules using List.reverseRecOn with
  | nil => intro acc; simp
  | append_singleton l a ih =>
    intro acc
    rw [List.foldl_append, List.foldl_cons, List.foldl_nil,
      addRuleToParseTable_cell, List.filter_append]
    by_cases hw : ruleWritesCell autoFirst autoFollow a n tk
    · simp [hw]
    · simp [hw, ih]

/-- C1: after addRulesToParseTable, every parse-table cell holds at
most one rule, namely the rule written last in file order among the
rules that target that cell, where a rule N to alpha targets cell
(N, t) when t is in FIRST(alpha) minus EPS, or when EPS is in
FIRST(alpha) and t is in FOLLOW(N); a cell targeted by no rule is
empty.  The claim statement ranges over input terminals, which never
include the EPS marker. -/
theorem c1_parse_table_last_writer (autoFirst autoFollow : NT → List Tok)
    (rules : List GRule) (n : NT) (tk : Tok) (h : tk ≠ .EPS) :
    (addRulesToParseTable autoFirst autoFollow rules).1 n tk
      = (rules.filter
          (fun r => ruleWritesCellSpec autoFirst autoFollow r n tk)
        ).getLast? := by
  unfold addRulesToParseTable
  rw [foldl_addRule_cell]
  have hfc : rules.filter
        (fun r => ruleWritesCell autoFirst autoFollow r n tk)
      = rules.filter
        (fun r => ruleWritesCellSpec autoFirst autoFollow r n tk) := by
    apply List.filter_congr
    intro r hr
    simp [ruleWritesCell, ruleWritesCellSpec, h]
  rw [hfc]
  cases (rules.filter
      (fun r => ruleWritesCellSpec autoFirst autoFollow r n tk)).getLast?
    with
  | none => rfl
  | some r => rfl

/-- Sample FIRST and FOLLOW environments and rules used to witness the
parse-table and FIRST-set theorems on concrete data. -/
def sampleFirst : NT → List Tok :=
  fun n => if n = .A then [.NUM, .EPS] else []

def sampleFollow : NT → List Tok :=
  fun n => if n = .A then [.DOLLAR] else []

def sampleRules : List GRule :=
  [⟨.A, [.t .NUM]⟩, ⟨.A, [.t .EPS]⟩, ⟨.program, [.nt .A, .t .DOLLAR]⟩]

theorem c1_parse_table_last_writer_witness :
    (addRulesToParseTable sampleFirst sampleFollow sampleRules).1
        .A .DOLLAR
      = (sampleRules.filter
          (fun r => ruleWritesCellSpec sampleFirst sampleFollow r
            .A .DOLLAR)).getLast? :=
  c1_parse_table_last_writer sampleFirst sampleFollow sampleRules
    .A .DOLLAR (by decide)

/-! ## FIRST sets reach a fixed point -/

theorem firstInsert_unchanged (st : NT → List Tok) (n : NT) (tk : Tok)
    (h : (firstInsert st n tk).2 = false) :
    (firstInsert st n tk).1 = st := by
  unfold firstInsert at h ⊢
  by_cases hm : tk ∈ st n
  · rw [if_pos hm]
  · rw [if_neg hm] at h
    exact absurd h (by simp)

theorem firstAddStep_fold_unchanged (lhs : NT) :
    ∀ (src : List Tok) (st : NT → List Tok) (m e : Bool),
      (src.foldl (firstAddStep lhs) ((st, m), e)).1.2 = false →
      (src.foldl (firstAddStep lhs) ((st, m), e)).1.1 = st ∧ m = false := by
  intro src
  induction src with
  | nil =>
    intro st m e h
    exact ⟨rfl, h⟩
  | cons tk ts ih =>
    intro st m e h
    rw [List.foldl_cons] at h ⊢
    by_cases hte : tk = .EPS
    · rw [show firstAddStep lhs ((st, m), e) tk = ((st, m), true) from by
        simp [firstAddStep, hte]] at h ⊢
      exact ih st m true h
    · rw [show firstAddStep lhs ((st, m), e) tk
          = (((firstInsert st lhs tk).1, m || (firstInsert st lhs tk).2), e)
        from by simp [firstAddStep, hte]] at h ⊢
      obtain ⟨h1, h2⟩ := ih (firstInsert st lhs tk).1
        (m || (firstInsert st lhs tk).2) e h
      rw [Bool.or_eq_false_iff] at h2
      rw [h1, firstInsert_unchanged st lhs tk h2.2]
      exact ⟨rfl, h2.1⟩

theorem firstAddFrom_unchanged (st : NT → List Tok) (lhs : NT)
    (src : List Tok) (h : (firstAddFrom st lhs src).1.2 = false) :
    (firstAddFrom st lhs src).1.1 = st :=
  (firstAddStep_fold_unchanged lhs src st false false h).1

theorem firstWalkRhs_unchanged (lhs : NT) :
    ∀ (rhs : List Sym) (st : NT → List Tok),
      (firstWalkRhs lhs rhs st).2 = false →
      (firstWalkRhs lhs rhs st).1 = st := by
  intro rhs
  induction rhs with
  | nil =>
    intro st h
    exact firstInsert_unchanged st lhs .EPS h
  | cons s rest ih =>
    intro st h
    cases s with
    | t tk => exact firstInsert_unchanged st lhs tk h
    | nt n =>
      rw [firstWalkRhs] at h ⊢
      by_cases he : (firstAddFrom st lhs (st n)).2
      · rw [if_pos he] at h ⊢
        simp only [Bool.or_eq_false_iff] at h
        have hst := firstAddFrom_unchanged st lhs (st n) h.1
        rw [hst] at h ⊢
        exact ih st h.2
      · rw [if_neg he] at h ⊢
        exact firstAddFrom_unchanged st lhs (st n) h

theorem firstPassStep_fold_unchanged :
    ∀ (rules : List GRule) (st : NT → List Tok) (m : Bool),
      (rules.foldl firstPassStep (st, m)).2 = false →
      (rules.foldl firstPassStep (st, m)).1 = st ∧ m = false := by
  intro rules
  induction rules with
  | nil =>
    intro st m h
    exact ⟨rfl, h⟩
  | cons r rs ih =>
    intro st m h
    rw [List.foldl_cons] at h ⊢
    rw [show firstPassStep (st, m) r
        = ((firstWalkRhs r.lhs r.rhs st).1,
            m || (firstWalkRhs r.lhs r.rhs st).2)
      from rfl] at h ⊢
    obtain ⟨h1, h2⟩ := ih (firstWalkRhs r.lhs r.rhs st).1
      (m || (firstWalkRhs r.lhs r.rhs st).2) h
    rw [Bool.or_eq_false_iff] at h2
    rw [h1, firstWalkRhs_unchanged r.lhs r.rhs st h2.2]
    exact ⟨rfl, h2.1⟩

theorem firstPassRules_unchanged (rules : List GRule)
    (st : NT → List Tok) (h : (firstPassRules rules st).2 = false) :
    (firstPassRules rules st).1 = st :=
  (firstPassStep_fold_unchanged rules st false h).1

/-- C2: when computeFirstSets stops because a pass made no
modification, its result is a fixed point of the pass: running the walk
over every rule once more changes no FIRST set and reports no
modification. -/
theorem c2_first_sets_fixed_point (rules : List GRule) (fuel : Nat)
    (st0 : NT → List Tok)
    (h : (computeFirstSets rules fuel st0).2 = true) :
    firstPassRules rules (computeFirstSets rules fuel st0).1
      = ((computeFirstSets rules fuel st0).1, false) := by
  induction fuel generalizing st0 with
  | zero => exact absurd h (by simp [computeFirstSets])
  | succ f ih =>
    rw [computeFirstSets] at h ⊢
    by_cases hm : (firstPassRules rules st0).2
    · rw [if_pos hm] at h ⊢
      exact ih _ h
    · rw [if_neg hm] at h ⊢
      have hb : (firstPassRules rules st0).2 = false := by
        simpa using hm
      have hst := firstPassRules_unchanged rules st0 hb
      simp only [hst]
      rw [Prod.ext_iff]
      exact ⟨hst, hb⟩

theorem c2_first_sets_fixed_point_witness :
    (computeFirstSets sampleRules 8 (fun _ => [])).2 = true
    ∧ firstPassRules sampleRules
        (computeFirstSets sampleRules 8 (fun _ => [])).1
      = ((computeFirstSets sampleRules 8 (fun _ => [])).1, false) :=
  ⟨by decide,
   c2_first_sets_fixed_point sampleRules 8 (fun _ => []) (by decide)⟩

/-! ## Parser error handling -/

/-- A token the parser loop body treats normally: not a comment and
not one of the lexical-error kinds at or past LEXICAL_ERROR. -/
abbrev normalTok (t : TokNode) : Prop :=
  ¬ (t.entry.tokenType = .COMMENT
      ∨ tokIdx .LEXICAL_ERROR ≤ tokIdx t.entry.tokenType)

/-- C5: with a terminal on top of the stack whose kind differs from the
current token, the parser emits one expected-versus-actual diagnostic
carrying the token line number and lexeme, sets the error flag, pops
the stack, and does not advance the input. -/
theorem c5_terminal_mismatch_pops_without_advance
    (table : NT → Tok → Option GRule) (follow : NT → List Tok)
    (tk : Tok) (rest : List Sym) (tn : TokNode) (inpRest : List TokNode)
    (e : Bool) (hnorm : normalTok tn) (heps : tk ≠ .EPS)
    (hne : tk ≠ tn.entry.tokenType) :
    parseStep table follow ⟨.t tk :: rest, tn :: inpRest, e⟩
      = (⟨rest, tn :: inpRest, true⟩,
         [.mismatch tn.lineNum tn.entry.tokenType tn.entry.lexeme tk]) := by
  simp only [parseStep]
  rw [if_neg hnorm, if_neg heps, if_neg hne]

theorem c5_terminal_mismatch_pops_without_advance_witness :
    parseStep (fun _ _ => none) (fun _ => [])
        ⟨[.t .SEM], [⟨⟨['x'], .NUM, 0⟩, 7⟩], false⟩
      = (⟨[], [⟨⟨['x'], .NUM, 0⟩, 7⟩], true⟩,
         [.mismatch 7 .NUM ['x'] .SEM]) :=
  c5_terminal_mismatch_pops_without_advance (fun _ _ => none)
    (fun _ => []) .SEM [] ⟨⟨['x'], .NUM, 0⟩, 7⟩ [] false
    (by decide) (by decide) (by decide)

/-- C4: with a non-terminal N on top and an empty parse-table cell for
the current token, the parser reports the diagnostic and recovers: it
pops N without consuming the token when the token kind is in FOLLOW(N);
otherwise it discards tokens one by one, emitting one diagnostic per
discarded token while the stack stays unchanged, until a token with a
cell entry at N or in FOLLOW(N) is reached, and such a token is not
discarded. -/
theorem c4_nonterminal_empty_cell_recovery
    (table : NT → Tok → Option GRule) (follow : NT → List Tok)
    (n : NT) (rest : List Sym) :
    (∀ (tn : TokNode) (inpRest : List TokNode) (e : Bool),
      normalTok tn → table n tn.entry.tokenType = none →
      tn.entry.tokenType ∈ follow n →
      parseStep table follow ⟨.nt n :: rest, tn :: inpRest, e⟩
        = (⟨rest, tn :: inpRest, true⟩,
           [.noEntry tn.lineNum tn.entry.tokenType tn.entry.lexeme n]))
    ∧ (∀ (ts : List TokNode) (t2 : TokNode) (more : List TokNode)
        (e : Bool),
      (∀ t ∈ ts, normalTok t ∧ table n t.entry.tokenType = none
        ∧ t.entry.tokenType ∉ follow n) →
      iterSteps table follow ts.length
          ⟨.nt n :: rest, ts ++ t2 :: more, e⟩
        = (⟨.nt n :: rest, t2 :: more, if ts.isEmpty then e else true⟩,
           ts.map (fun t =>
             .noEntry t.lineNum t.entry.tokenType t.entry.lexeme n)))
    ∧ (∀ (t2 : TokNode) (more : List TokNode) (e : Bool),
      normalTok t2 →
      (table n t2.entry.tokenType ≠ none
        ∨ t2.entry.tokenType ∈ follow n) →
      (parseStep table follow ⟨.nt n :: rest, t2 :: more, e⟩).1.inp
        = t2 :: more) := by
  refine ⟨?_, ?_, ?_⟩
  · intro tn inpRest e hnorm hcell hfol
    simp only [parseStep]
    rw [if_neg hnorm, hcell]
    simp only [if_pos hfol]
  · intro ts
    induction ts with
    | nil =>
      intro t2 more e hskip
      simp [iterSteps]
    | cons t ts ih =>
      intro t2 more e hskip
      obtain ⟨hnorm, hcell, hfol⟩ := hskip t (List.mem_cons_self t ts)
      rw [List.length_cons, iterSteps]
      rw [if_neg (by simp)]
      have hstep : parseStep table follow
          ⟨.nt n :: rest, (t :: ts) ++ t2 :: more, e⟩
          = (⟨.nt n :: rest, ts ++ t2 :: more, true⟩,
             [.noEntry t.lineNum t.entry.tokenType t.entry.lexeme n]) := by
        simp only [parseStep, List.cons_append]
        rw [if_neg hnorm, hcell]
        simp only [if_neg hfol]
        cases ts with
        | nil => rfl
        | cons t3 ts3 => rfl
      rw [hstep]
      dsimp only
      have ih2 := ih t2 more true
        (fun t4 ht4 => hskip t4 (List.mem_cons_of_mem t ht4))
      rw [ih2]
      cases ts with
      | nil => simp
      | cons t3 ts3 => simp
  · intro t2 more e hnorm hsync
    simp only [parseStep]
    rw [if_neg hnorm]
    cases hc : table n t2.entry.tokenType with
    | some r => rfl
    | none =>
      have hfol : t2.entry.tokenType ∈ follow n := by
        rcases hsync with hs | hs
        · exact absurd hc hs
        · exact hs
      simp only [if_pos hfol]

theorem c4_nonterminal_empty_cell_recovery_witness :
    (parseStep (fun _ _ => none) (fun m => if m = .A then [.SEM] else [])
        ⟨[.nt .A], [⟨⟨[], .SEM, 0⟩, 3⟩], false⟩
      = (⟨[], [⟨⟨[], .SEM, 0⟩, 3⟩], true⟩, [.noEntry 3 .SEM [] .A]))
    ∧ (iterSteps (fun _ _ => none)
        (fun m => if m = .A then [.SEM] else []) 1
        ⟨[.nt .A], [⟨⟨['+'], .PLUS, 0⟩, 4⟩, ⟨⟨[], .SEM, 0⟩, 5⟩], false⟩
      = (⟨[.nt .A], [⟨⟨[], .SEM, 0⟩, 5⟩], true⟩,
         [.noEntry 4 .PLUS ['+'] .A]))
    ∧ ((parseStep (fun _ _ => none)
        (fun m => if m = .A then [.SEM] else [])
        ⟨[.nt .A], [⟨⟨[], .SEM, 0⟩, 6⟩], false⟩).1.inp
      = [⟨⟨[], .SEM, 0⟩, 6⟩]) := by
  refine ⟨?_, ?_, ?_⟩
  · exact (c4_nonterminal_empty_cell_recovery (fun _ _ => none)
      (fun m => if m = .A then [.SEM] else []) .A []).1
      ⟨⟨[], .SEM, 0⟩, 3⟩ [] false (by decide) (by decide) (by decide)
  · exact (c4_nonterminal_empty_cell_recovery (fun _ _ => none)
      (fun m => if m = .A then [.SEM] else []) .A []).2.1
      [⟨⟨['+'], .PLUS, 0⟩, 4⟩] ⟨⟨[], .SEM, 0⟩, 5⟩ [] false (by decide)
  · exact (c4_nonterminal_empty_cell_recovery (fun _ _ => none)
      (fun m => if m = .A then [.SEM] else []) .A []).2.2
      ⟨⟨[], .SEM, 0⟩, 6⟩ [] false (by decide) (by decide)

end Coco
